import Mathlib

/-!
Verification development for the `plato` research extensions: a shallow
embedding of `src/utils/fedsarah_optimizer.py`, `src/servers/adaptive_sync.py`
and `src/clients/adaptive_sync.py`, followed by theorems settling the claims
about them.

Modelling conventions:
* Tensors are modelled elementwise: a parameter tensor, a gradient and a
  control variate are single rational scalars; the torch elementwise
  operations `add`, `sub`, `add_(alpha, t)` (meaning `x += alpha * t`),
  `mul_` become rational arithmetic.
* The per-parameter optimizer state dictionary `self.state[p]` (holding only
  `momentum_buffer`) is modelled as a field of the parameter itself, since it
  is keyed one-to-one by parameter.
* The attributes `client_control_variates` and `server_control_variates` are
  both `None` after `__init__` and are always (re)assigned together, so they
  are modelled as a single `Option` of a pair (client, server).
* Python exceptions raised by the runtime/library (e.g. `zip` over `None`)
  are modelled with `Except PyError`; `PyError.raisedBy` records whether the
  error comes from the underlying library/runtime or from an explicit
  `raise` in this repository (the source contains none).
* `torch.save(obj, fn)` is modelled as an explicit effect value `SaveFile`
  returned alongside the new state.
-/

/-- Where a Python exception originates: the underlying library/runtime, or an
explicit `raise` statement in this repository's own code. -/
inductive RaiseSite where
  | library
  | repository
deriving DecidableEq

/-- A Python exception, tagged with its origin. -/
structure PyError where
  raisedBy : RaiseSite
  message : String
deriving DecidableEq

/-- A file written by `torch.save`: its name and the saved list of
(elementwise-modelled) control variates. -/
structure SaveFile where
  filename : String
  contents : List ℚ
deriving DecidableEq

/-- One model parameter, modelled elementwise: `data` is the weight value,
`grad` is `p.grad` (`none` when the parameter has no gradient), and
`momentum_buffer` models `self.state[p]['momentum_buffer']` (absent = `none`). -/
structure Param where
  data : ℚ
  grad : Option ℚ
  momentum_buffer : Option ℚ
deriving DecidableEq

/-- One entry of `self.param_groups`: the parameter list and the
hyperparameters stored in the group by `optim.SGD`. -/
structure ParamGroup where
  params : List Param
  lr : ℚ
  momentum : ℚ
  dampening : ℚ
  weight_decay : ℚ
  nesterov : Bool
deriving DecidableEq

/-- The state of a `FedSarahOptimizer` after `__init__`: the param groups,
the pair (client, server) of control-variate lists (`none` until first
initialized), `client_id`, `max_counter` (both `None` in `__init__`) and the
epoch counter (0 in `__init__`). -/
structure FedSarahOptimizer where
  param_groups : List ParamGroup
  control_variates : Option (List ℚ × List ℚ)
  client_id : Option ℤ
  max_counter : Option ℤ
  epoch_counter : ℤ
deriving DecidableEq

/-- The per-parameter body of the loop in `FedSarahOptimizer.step`: weight
decay, momentum/nesterov handling, then the variance-reduced update
`p.data.add_(-lr, d_p + (server_cv - client_cv))`. Returns the updated
parameter (its `grad` reflects the in-place `d_p.add_(weight_decay, p.data)`,
which mutates `p.grad.data`, and its `momentum_buffer` reflects the updates
to `self.state[p]`). -/
def stepParam (lr momentum dampening weight_decay : ℚ) (nesterov : Bool)
    (p : Param) (client_control_variate server_control_variate : ℚ) : Param :=
  match p.grad with
  | none => p
  | some g =>
    let d_p := g
    let d_p := if weight_decay ≠ 0 then d_p + weight_decay * p.data else d_p
    let gradAfter := d_p
    let (d_p, bufAfter) :=
      if momentum ≠ 0 then
        match p.momentum_buffer with
        | none =>
          let buf := d_p
          (if nesterov then d_p + momentum * buf else buf, some buf)
        | some buf0 =>
          let buf := momentum * buf0 + (1 - dampening) * d_p
          (if nesterov then d_p + momentum * buf else buf, some buf)
      else (d_p, p.momentum_buffer)
    let control_variate_batch := server_control_variate - client_control_variate
    let control_variate_batch := d_p + control_variate_batch
    { data := p.data + (-lr) * control_variate_batch
      grad := some gradAfter
      momentum_buffer := bufAfter }

/-- The `zip(group['params'], client_cvs, server_cvs)` loop of `step`:
Python's `zip` stops at the shortest list, so parameters beyond the end of a
control-variate list are left untouched. -/
def stepParams (lr momentum dampening weight_decay : ℚ) (nesterov : Bool) :
    List Param → List ℚ → List ℚ → List Param
  | p :: ps, c :: cs, v :: vs =>
    stepParam lr momentum dampening weight_decay nesterov p c v ::
      stepParams lr momentum dampening weight_decay nesterov ps cs vs
  | ps, _, _ => ps

/-- The `for group in self.param_groups` loop of `step`: on the first group
with the control variates still `None`, both lists are initialized to
`[0] * len(group['params'])`; each group's parameters are then updated. -/
def stepGroups : List ParamGroup → Option (List ℚ × List ℚ) →
    List ParamGroup × Option (List ℚ × List ℚ)
  | [], cvs => ([], cvs)
  | g :: gs, cvs =>
    let cc_sc :=
      match cvs with
      | none => (List.replicate g.params.length (0 : ℚ),
                 List.replicate g.params.length (0 : ℚ))
      | some p => p
    let g' := { g with
      params := stepParams g.lr g.momentum g.dampening g.weight_decay
        g.nesterov g.params cc_sc.1 cc_sc.2 }
    let (gs', cvs') := stepGroups gs (some cc_sc)
    (g' :: gs', cvs')

/-- `FedSarahOptimizer.step(closure)`: evaluates the closure (if any) for the
returned loss, then performs the variance-reduced SGD update on every group.
Returns `(loss, updated optimizer)`. -/
def FedSarahOptimizer.step (opt : FedSarahOptimizer)
    (closure : Option (Unit → ℚ)) : Option ℚ × FedSarahOptimizer :=
  let loss := closure.map fun f => f ()
  let (gs, cvs) := stepGroups opt.param_groups opt.control_variates
  (loss, { opt with param_groups := gs, control_variates := cvs })

/-- The inner `zip(group['params'], client_cvs, server_cvs)` loop of
`params_state_update`, threading the `new_client_control_variates` and
`new_server_control_variates` accumulator lists: parameters without a
gradient are skipped; otherwise the gradient is appended to the new client
list and `grad + (server_cv - client_cv)` to the new server list. -/
def psuParams : List ℚ → List ℚ → List Param → List ℚ → List ℚ →
    List ℚ × List ℚ
  | newc, news, p :: ps, c :: cs, v :: vs =>
    match p.grad with
    | none => psuParams newc news ps cs vs
    | some g => psuParams (newc ++ [g]) (news ++ [g + (v - c)]) ps cs vs
  | newc, news, _, _, _ => (newc, news)

/-- The `for group in self.param_groups` loop of `params_state_update`.
`ec` is the already-incremented epoch counter, `mc` is `max_counter`, `fn`
the save filename. After each group the accumulated new lists are assigned
to the optimizer's control variates, and when `epoch_counter == max_counter`
the current client control variates are saved (`torch.save`). Iterating the
zip when the control variates are still `None` raises a library `TypeError`. -/
def psuGroups (ec : ℤ) (mc : Option ℤ) (fn : String)
    (newc news : List ℚ) :
    List ParamGroup → Option (List ℚ × List ℚ) → List SaveFile →
    Except PyError (Option (List ℚ × List ℚ) × List SaveFile)
  | [], cvs, saves => Except.ok (cvs, saves)
  | g :: gs, cvs, saves =>
    match cvs with
    | none =>
      Except.error
        { raisedBy := RaiseSite.library
          message := "TypeError: zip argument #2 must support iteration" }
    | some (cc, sc) =>
      let (newc', news') := psuParams newc news g.params cc sc
      let saves' :=
        if mc = some ec then saves ++ [{ filename := fn, contents := newc' }]
        else saves
      psuGroups ec mc fn newc' news' gs (some (newc', news')) saves'

/-- Renders a Python value inside an f-string: `None` prints as "None". -/
def pyFormatId : Option ℤ → String
  | none => "None"
  | some n => toString n

/-- `FedSarahOptimizer.params_state_update()`: increments the epoch counter,
recomputes both control-variate lists from the current gradients, and — when
the epoch counter has reached `max_counter` — saves the client control
variates to `new_client_control_variates_<client_id>.pth`. Returns the new
optimizer state together with the list of files written. -/
def FedSarahOptimizer.params_state_update (opt : FedSarahOptimizer) :
    Except PyError (FedSarahOptimizer × List SaveFile) :=
  let ec := opt.epoch_counter + 1
  let fn := "new_client_control_variates_" ++ pyFormatId opt.client_id ++ ".pth"
  match psuGroups ec opt.max_counter fn [] [] opt.param_groups
      opt.control_variates [] with
  | Except.error e => Except.error e
  | Except.ok (cvs, saves) =>
    Except.ok ({ opt with epoch_counter := ec, control_variates := cvs }, saves)

/-- A Python value stored in a server-response dictionary or a config field. -/
inductive PyVal where
  | int : ℤ → PyVal
  | str : String → PyVal
  | pyNone : PyVal
deriving DecidableEq

/-- A Python dict with string keys, modelled as an association list without
duplicate-key semantics issues: `dictSet` overwrites in place. -/
abbrev Dict := List (String × PyVal)

/-- `d[k] = v` on a Python dict: replace the value of an existing key,
otherwise append the new binding. -/
def dictSet (d : Dict) (k : String) (v : PyVal) : Dict :=
  match d with
  | [] => [(k, v)]
  | (k', v') :: rest =>
    if k' = k then (k', v) :: rest else (k', v') :: dictSet rest k v

/-- `d[k]` / `k in d` on a Python dict: the value at key `k`, if present. -/
def dictGet (d : Dict) (k : String) : Option PyVal :=
  match d with
  | [] => none
  | (k', v') :: rest => if k' = k then some v' else dictGet rest k

/-- The state of an `AdaptiveSyncServer`: `previous_model` (set to `None` in
`__init__`) and the `sync_frequency` taken from its trainer. -/
structure AdaptiveSyncServer where
  previous_model : Option PyVal
  trainer_sync_frequency : ℤ
deriving DecidableEq

/-- `AdaptiveSyncServer.customize_server_response`: sets the
`sync_frequency` field of the response to the trainer's sync frequency and
returns it; the method assigns nothing to `self`, so the server state is
returned unchanged. -/
def AdaptiveSyncServer.customize_server_response (s : AdaptiveSyncServer)
    (server_response : Dict) : Dict × AdaptiveSyncServer :=
  (dictSet server_response "sync_frequency"
    (PyVal.int s.trainer_sync_frequency), s)

/-- The trainer section of the global `Config()` namedtuple: the `epochs`
field and the remaining fields, which `_replace(epochs=...)` leaves intact. -/
structure TrainerConfig where
  epochs : PyVal
  rest : List (String × PyVal)
deriving DecidableEq

/-- The global `Config()` singleton, as far as the client hook touches it. -/
structure Config where
  trainer : TrainerConfig
deriving DecidableEq

/-- `AdaptiveSyncClient.process_server_response`: if the server response
contains a `sync_frequency` key, replace `Config().trainer.epochs` with its
value; otherwise leave the configuration untouched. -/
def AdaptiveSyncClient.process_server_response (cfg : Config)
    (server_response : Dict) : Config :=
  match dictGet server_response "sync_frequency" with
  | some v => { cfg with trainer := { cfg.trainer with epochs := v } }
  | none => cfg

/-! ## Dictionary lemmas -/

/-- Setting a key makes it present with the new value. -/
theorem dictGet_dictSet_self (d : Dict) (k : String) (v : PyVal) :
    dictGet (dictSet d k v) k = some v := by
  induction d with
  | nil => simp [dictSet, dictGet]
  | cons kv rest ih =>
    by_cases h : kv.1 = k <;> simp [dictSet, dictGet, h, ih]

/-- Setting a key leaves every other key's value untouched. -/
theorem dictGet_dictSet_ne (d : Dict) (k k' : String) (v : PyVal)
    (h : k' ≠ k) : dictGet (dictSet d k v) k' = dictGet d k' := by
  induction d with
  | nil => simp [dictSet, dictGet, Ne.symm h]
  | cons kv rest ih =>
    by_cases h1 : kv.1 = k
    · subst h1
      simp [dictSet, dictGet, Ne.symm h]
    · by_cases h2 : kv.1 = k' <;> simp [dictSet, dictGet, h, h1, h2, ih]

/-- C2: `AdaptiveSyncServer.customize_server_response` returns the input
response with its `sync_frequency` field set to the trainer's
`sync_frequency` value: the returned dictionary maps `sync_frequency` to the
trainer's value and agrees with the input on every other key. -/
theorem C2_customize_server_response_sets_sync_frequency
    (s : AdaptiveSyncServer) (server_response : Dict) :
    dictGet (s.customize_server_response server_response).1 "sync_frequency"
      = some (PyVal.int s.trainer_sync_frequency) ∧
    ∀ k : String, k ≠ "sync_frequency" →
      dictGet (s.customize_server_response server_response).1 k
        = dictGet server_response k := by
  refine ⟨?_, ?_⟩
  · exact dictGet_dictSet_self server_response "sync_frequency"
      (PyVal.int s.trainer_sync_frequency)
  · intro k hk
    exact dictGet_dictSet_ne server_response "sync_frequency" k
      (PyVal.int s.trainer_sync_frequency) hk

/-- C2 witness: a concrete server with sync frequency 4 and a concrete
response with one other key. -/
theorem C2_customize_server_response_sets_sync_frequency_witness :
    dictGet ((AdaptiveSyncServer.customize_server_response
        { previous_model := none, trainer_sync_frequency := 4 }
        [("round", PyVal.int 1)]).1) "sync_frequency" = some (PyVal.int 4) ∧
    dictGet ((AdaptiveSyncServer.customize_server_response
        { previous_model := none, trainer_sync_frequency := 4 }
        [("round", PyVal.int 1)]).1) "round" = some (PyVal.int 1) := by
  have h := C2_customize_server_response_sets_sync_frequency
    { previous_model := none, trainer_sync_frequency := 4 }
    [("round", PyVal.int 1)]
  exact ⟨h.1, (h.2 "round" (by decide)).trans (by decide)⟩

/-- C8: `customize_server_response` only adjusts the response payload: every
key other than `sync_frequency` keeps its value, and the server state —
`previous_model` included — is not modified by the call. -/
theorem C8_customize_server_response_frame
    (s : AdaptiveSyncServer) (server_response : Dict) :
    (s.customize_server_response server_response).2 = s ∧
    (s.customize_server_response server_response).2.previous_model
      = s.previous_model ∧
    ∀ k : String, k ≠ "sync_frequency" →
      dictGet (s.customize_server_response server_response).1 k
        = dictGet server_response k := by
  refine ⟨rfl, rfl, ?_⟩
  intro k hk
  exact dictGet_dictSet_ne server_response "sync_frequency" k
    (PyVal.int s.trainer_sync_frequency) hk

/-- C8 witness: a concrete server and response. -/
theorem C8_customize_server_response_frame_witness :
    (AdaptiveSyncServer.customize_server_response
        { previous_model := some (PyVal.str "m"), trainer_sync_frequency := 2 }
        [("id", PyVal.int 3)]).2
      = { previous_model := some (PyVal.str "m"), trainer_sync_frequency := 2 } ∧
    dictGet ((AdaptiveSyncServer.customize_server_response
        { previous_model := some (PyVal.str "m"), trainer_sync_frequency := 2 }
        [("id", PyVal.int 3)]).1) "id" = some (PyVal.int 3) := by
  have h := C8_customize_server_response_frame
    { previous_model := some (PyVal.str "m"), trainer_sync_frequency := 2 }
    [("id", PyVal.int 3)]
  exact ⟨h.1, (h.2.2 "id" (by decide)).trans (by decide)⟩

/-- C3: `process_server_response` sets `Config().trainer.epochs` to the
response's `sync_frequency` value exactly when the key is present (leaving
every other trainer field intact), and leaves the configuration unchanged
when the key is absent. -/
theorem C3_process_server_response_epochs
    (cfg : Config) (server_response : Dict) :
    (∀ v : PyVal, dictGet server_response "sync_frequency" = some v →
      AdaptiveSyncClient.process_server_response cfg server_response
        = { cfg with trainer := { cfg.trainer with epochs := v } }) ∧
    (dictGet server_response "sync_frequency" = none →
      AdaptiveSyncClient.process_server_response cfg server_response = cfg) := by
  refine ⟨?_, ?_⟩
  · intro v hv
    simp [AdaptiveSyncClient.process_server_response, hv]
  · intro hv
    simp [AdaptiveSyncClient.process_server_response, hv]

/-- C3 witness: with the key present the epochs field is replaced; applied at
a concrete configuration and response. -/
theorem C3_process_server_response_epochs_witness :
    AdaptiveSyncClient.process_server_response
        { trainer := { epochs := PyVal.int 5, rest := [("model", PyVal.str "lenet5")] } }
        [("sync_frequency", PyVal.int 2)]
      = { trainer := { epochs := PyVal.int 2, rest := [("model", PyVal.str "lenet5")] } } :=
  (C3_process_server_response_epochs
    { trainer := { epochs := PyVal.int 5, rest := [("model", PyVal.str "lenet5")] } }
    [("sync_frequency", PyVal.int 2)]).1 (PyVal.int 2) (by decide)

/-- C9: `FedSarahOptimizer.step` returns the closure's value when a closure
is supplied and `None` otherwise, for every optimizer state (i.e. regardless
of the parameter updates performed). -/
theorem C9_step_returns_closure_loss
    (opt : FedSarahOptimizer) (f : Unit → ℚ) :
    (opt.step (some f)).1 = some (f ()) ∧ (opt.step none).1 = none :=
  ⟨rfl, rfl⟩

/-! ## Lemmas about `FedSarahOptimizer.step` -/

/-- With zero momentum and zero weight decay, the per-parameter step update
is `data += -lr * (grad + (server_cv - client_cv))`, the gradient and the
momentum buffer being untouched. -/
theorem stepParam_zero_hyper (lr dampening : ℚ) (nv : Bool) (p : Param)
    (c v gr : ℚ) (hg : p.grad = some gr) :
    stepParam lr 0 dampening 0 nv p c v =
      { data := p.data + (-lr) * (gr + (v - c)), grad := some gr,
        momentum_buffer := p.momentum_buffer } := by
  simp [stepParam, hg]

/-- Indexing the zipped parameter update of `step`: when all three lists have
an entry at `i`, the output at `i` is the per-parameter update of those
entries. -/
theorem stepParams_get? (lr m dp wd : ℚ) (nv : Bool) (ps : List Param)
    (cc sc : List ℚ) (i : ℕ) (p : Param) (c v : ℚ)
    (hp : ps.get? i = some p) (hc : cc.get? i = some c)
    (hv : sc.get? i = some v) :
    (stepParams lr m dp wd nv ps cc sc).get? i =
      some (stepParam lr m dp wd nv p c v) := by
  induction ps generalizing cc sc i with
  | nil => simp at hp
  | cons p0 ps ih =>
    cases cc with
    | nil => simp at hc
    | cons c0 cs =>
      cases sc with
      | nil => simp at hv
      | cons v0 vs =>
        cases i with
        | zero =>
          simp only [List.get?] at hp hc hv
          cases hp; cases hc; cases hv
          simp [stepParams]
        | succ n =>
          simp only [List.get?] at hp hc hv
          simpa [stepParams] using ih cs vs n hp hc hv

/-- C1: in `FedSarahOptimizer.step` the control variate is subtracted from
the gradient estimate before the weight update: with momentum 0 and weight
decay 0, every parameter with a gradient changes by exactly
`-lr * (grad + server_control_variate - client_control_variate)`. -/
theorem C1_step_subtracts_control_variate
    (g : ParamGroup) (cc sc : List ℚ) (cid mc : Option ℤ) (ec : ℤ)
    (closure : Option (Unit → ℚ))
    (hm : g.momentum = 0) (hw : g.weight_decay = 0)
    (i : ℕ) (hi : i < g.params.length) (gr : ℚ)
    (hg : (g.params.get ⟨i, hi⟩).grad = some gr)
    (hcc : i < cc.length) (hsc : i < sc.length) :
    ∃ g' : ParamGroup,
      (FedSarahOptimizer.step
          { param_groups := [g], control_variates := some (cc, sc),
            client_id := cid, max_counter := mc, epoch_counter := ec }
          closure).2.param_groups = [g'] ∧
      (g'.params.get? i).map Param.data
        = some ((g.params.get ⟨i, hi⟩).data
            - g.lr * (gr + sc.get ⟨i, hsc⟩ - cc.get ⟨i, hcc⟩)) := by
  refine ⟨{ g with params := stepParams g.lr g.momentum g.dampening g.weight_decay g.nesterov g.params cc sc }, rfl, ?_⟩
  have hp : g.params.get? i = some (g.params.get ⟨i, hi⟩) :=
    List.get?_eq_get hi
  have hc : cc.get? i = some (cc.get ⟨i, hcc⟩) := List.get?_eq_get hcc
  have hv : sc.get? i = some (sc.get ⟨i, hsc⟩) := List.get?_eq_get hsc
  rw [hm, hw]
  rw [stepParams_get? g.lr 0 g.dampening 0 g.nesterov g.params cc sc i
      (g.params.get ⟨i, hi⟩) (cc.get ⟨i, hcc⟩) (sc.get ⟨i, hsc⟩) hp hc hv]
  rw [stepParam_zero_hyper g.lr g.dampening g.nesterov
      (g.params.get ⟨i, hi⟩) (cc.get ⟨i, hcc⟩) (sc.get ⟨i, hsc⟩) gr hg]
  simp only [Option.map_some']
  congr 1
  ring

/-- A concrete one-parameter group used by the concrete witnesses: one weight
with value 10, gradient 2, no momentum buffer; lr 1/2, all other
hyperparameters zero. -/
def gW : ParamGroup :=
  { params := [{ data := 10, grad := some 2, momentum_buffer := none }],
    lr := 1/2, momentum := 0, dampening := 0, weight_decay := 0,
    nesterov := false }

/-- Concrete client control variates for the witnesses. -/
def ccW : List ℚ := [3]

/-- Concrete server control variates for the witnesses. -/
def scW : List ℚ := [5]

/-- C1 witness: the theorem applied to a one-parameter optimizer with
gradient 2, client control variate 3 and server control variate 5. -/
theorem C1_step_subtracts_control_variate_witness :
    ∃ g' : ParamGroup,
      (FedSarahOptimizer.step
          { param_groups := [gW], control_variates := some (ccW, scW),
            client_id := none, max_counter := none, epoch_counter := 0 }
          none).2.param_groups = [g'] ∧
      (g'.params.get? 0).map Param.data
        = some ((gW.params.get ⟨0, by decide⟩).data
            - gW.lr * (2 + scW.get ⟨0, by decide⟩ - ccW.get ⟨0, by decide⟩)) :=
  C1_step_subtracts_control_variate gW ccW scW none none 0 none rfl rfl 0
    (by decide) 2 (by decide) (by decide) (by decide)

/-- The plain SGD update, written from the spec's words for the
refinement comparison: every parameter with a gradient decreases by `lr`
times its gradient, everything else is untouched. -/
def sgdPlainParam (lr : ℚ) (p : Param) : Param :=
  match p.grad with
  | none => p
  | some g => { p with data := p.data - lr * g }

/-- With zero momentum, zero weight decay and zero control variates, the
per-parameter step update coincides with the plain SGD update. -/
theorem stepParam_zero_cv_eq_sgd (lr dp : ℚ) (nv : Bool) (p : Param) :
    stepParam lr 0 dp 0 nv p 0 0 = sgdPlainParam lr p := by
  obtain ⟨d, gr, mb⟩ := p
  cases gr with
  | none => rfl
  | some g0 =>
    simp only [stepParam, sgdPlainParam, Param.mk.injEq, and_true, true_and,
      ne_eq, not_true_eq_false, if_false, ite_false]
    ring

/-- Over a whole parameter list with zero control variates, the step update
is the plain SGD map. -/
theorem stepParams_zero_cv (lr dp : ℚ) (nv : Bool) (ps : List Param) :
    stepParams lr 0 dp 0 nv ps (List.replicate ps.length 0)
        (List.replicate ps.length 0)
      = ps.map (sgdPlainParam lr) := by
  induction ps with
  | nil => rfl
  | cons p ps ih =>
    simp [List.replicate_succ, stepParams, stepParam_zero_cv_eq_sgd, ih]

/-- C4: on the first call to `step` — both control-variate lists just
initialized to zeros — with momentum 0 and weight decay 0, the parameter
update is exactly the plain SGD update: every parameter with a gradient
decreases by `lr` times its gradient. -/
theorem C4_first_step_is_plain_sgd
    (g : ParamGroup) (cid mc : Option ℤ) (ec : ℤ)
    (closure : Option (Unit → ℚ))
    (hm : g.momentum = 0) (hw : g.weight_decay = 0) :
    ∃ g' : ParamGroup,
      (FedSarahOptimizer.step
          { param_groups := [g], control_variates := none,
            client_id := cid, max_counter := mc, epoch_counter := ec }
          closure).2.param_groups = [g'] ∧
      g'.params = g.params.map (sgdPlainParam g.lr) := by
  refine ⟨{ g with params := stepParams g.lr g.momentum g.dampening g.weight_decay g.nesterov g.params (List.replicate g.params.length 0) (List.replicate g.params.length 0) }, rfl, ?_⟩
  rw [hm, hw]
  exact stepParams_zero_cv g.lr g.dampening g.nesterov g.params

/-- C4 witness: the theorem applied to a freshly constructed one-parameter
optimizer (control variates still `None`). -/
theorem C4_first_step_is_plain_sgd_witness :
    ∃ g' : ParamGroup,
      (FedSarahOptimizer.step
          { param_groups := [gW], control_variates := none,
            client_id := none, max_counter := none, epoch_counter := 0 }
          none).2.param_groups = [g'] ∧
      g'.params = gW.params.map (sgdPlainParam gW.lr) :=
  C4_first_step_is_plain_sgd gW none none 0 none rfl rfl

/-- Indexing the zipped parameter update of `step` at a parameter without a
gradient: the parameter is returned unchanged (the loop hits `continue`, and
parameters past the end of a control-variate list are not visited at all). -/
theorem stepParams_get?_none_grad (lr m dp wd : ℚ) (nv : Bool)
    (ps : List Param) (cc sc : List ℚ) (i : ℕ) (p : Param)
    (hp : ps.get? i = some p) (hg : p.grad = none) :
    (stepParams lr m dp wd nv ps cc sc).get? i = some p := by
  induction ps generalizing cc sc i with
  | nil => simp at hp
  | cons p0 ps ih =>
    cases cc with
    | nil => simpa [stepParams] using hp
    | cons c0 cs =>
      cases sc with
      | nil => simpa [stepParams] using hp
      | cons v0 vs =>
        cases i with
        | zero =>
          simp only [List.get?] at hp
          cases hp
          simp [stepParams, stepParam, hg]
        | succ n =>
          simp only [List.get?] at hp
          simpa [stepParams] using ih cs vs n hp

/-- The control-variate pair a group works with inside the loops of `step`:
the stored pair, or two zero lists when the variates are still `None`. -/
def initCVs (g : ParamGroup) (cvs : Option (List ℚ × List ℚ)) :
    List ℚ × List ℚ :=
  cvs.getD (List.replicate g.params.length 0, List.replicate g.params.length 0)

/-- Unfolding one group of the `step` loop, with the control-variate
initialization made explicit. -/
theorem stepGroups_cons (g : ParamGroup) (gs : List ParamGroup)
    (cvs : Option (List ℚ × List ℚ)) :
    stepGroups (g :: gs) cvs =
      ({ g with params := stepParams g.lr g.momentum g.dampening g.weight_decay g.nesterov g.params (initCVs g cvs).1 (initCVs g cvs).2 } :: (stepGroups gs (some (initCVs g cvs))).1,
       (stepGroups gs (some (initCVs g cvs))).2) := by
  cases cvs <;> rfl

/-- Once the control variates are a pair of lists, `step` never changes
them. -/
theorem stepGroups_cvs_some (gs : List ParamGroup) (cvs : List ℚ × List ℚ) :
    (stepGroups gs (some cvs)).2 = some cvs := by
  induction gs with
  | nil => rfl
  | cons g gs ih => simp [stepGroups_cons, initCVs, ih]

/-- Group-level version of the skip property: the group at position `j`
still exists after `step`, and its parameter at position `i` is unchanged
when that parameter has no gradient. -/
theorem stepGroups_get?_none_grad (gs : List ParamGroup)
    (cvs : Option (List ℚ × List ℚ)) (j i : ℕ) (g : ParamGroup) (p : Param)
    (hj : gs.get? j = some g) (hi : g.params.get? i = some p)
    (hg : p.grad = none) :
    ∃ g' : ParamGroup, (stepGroups gs cvs).1.get? j = some g' ∧
      g'.params.get? i = some p := by
  induction gs generalizing cvs j with
  | nil => simp at hj
  | cons g0 gs ih =>
    cases j with
    | zero =>
      simp only [List.get?] at hj
      cases hj
      rw [stepGroups_cons]
      exact ⟨_, rfl, stepParams_get?_none_grad _ _ _ _ _ _ _ _ _ _ hi hg⟩
    | succ n =>
      simp only [List.get?] at hj
      obtain ⟨g', h1, h2⟩ := ih (some (initCVs g0 cvs)) n hj
      refine ⟨g', ?_, h2⟩
      rw [stepGroups_cons]
      simpa using h1

/-- C10: every parameter whose gradient is `None` is skipped by `step`: the
parameter (its data, gradient, and per-parameter optimizer state) is
returned unchanged, and existing control-variate lists — hence the
parameter's paired entries — are not modified by the call. -/
theorem C10_step_skips_params_without_grad
    (opt : FedSarahOptimizer) (closure : Option (Unit → ℚ))
    (j i : ℕ) (g : ParamGroup) (p : Param)
    (hj : opt.param_groups.get? j = some g)
    (hi : g.params.get? i = some p)
    (hg : p.grad = none) :
    (∃ g' : ParamGroup,
      (opt.step closure).2.param_groups.get? j = some g' ∧
      g'.params.get? i = some p) ∧
    ∀ cvs : List ℚ × List ℚ, opt.control_variates = some cvs →
      (opt.step closure).2.control_variates = some cvs := by
  constructor
  · exact stepGroups_get?_none_grad opt.param_groups opt.control_variates
      j i g p hj hi hg
  · intro cvs hcvs
    show (stepGroups opt.param_groups opt.control_variates).2 = some cvs
    rw [hcvs]
    exact stepGroups_cvs_some opt.param_groups cvs

/-- A concrete parameter without a gradient, for the C10 witness. -/
def pNoGrad : Param := { data := 7, grad := none, momentum_buffer := some 1 }

/-- A concrete group whose single parameter has no gradient. -/
def gNoGrad : ParamGroup :=
  { params := [pNoGrad], lr := 1, momentum := 0, dampening := 0,
    weight_decay := 0, nesterov := false }

/-- C10 witness: the theorem applied to a one-parameter optimizer whose
parameter has no gradient and whose control variates are `([3], [5])`. -/
theorem C10_step_skips_params_without_grad_witness :
    (∃ g' : ParamGroup,
      (FedSarahOptimizer.step
          { param_groups := [gNoGrad], control_variates := some (ccW, scW),
            client_id := none, max_counter := none, epoch_counter := 0 }
          none).2.param_groups.get? 0 = some g' ∧
      g'.params.get? 0 = some pNoGrad) ∧
    ∀ cvs : List ℚ × List ℚ,
      (FedSarahOptimizer.control_variates
          { param_groups := [gNoGrad], control_variates := some (ccW, scW),
            client_id := none, max_counter := none, epoch_counter := 0 })
        = some cvs →
      (FedSarahOptimizer.step
          { param_groups := [gNoGrad], control_variates := some (ccW, scW),
            client_id := none, max_counter := none, epoch_counter := 0 }
          none).2.control_variates = some cvs :=
  C10_step_skips_params_without_grad
    { param_groups := [gNoGrad], control_variates := some (ccW, scW),
      client_id := none, max_counter := none, epoch_counter := 0 }
    none 0 0 gNoGrad pNoGrad rfl rfl rfl

/-! ## Lemmas about `FedSarahOptimizer.params_state_update` -/

/-- Every error produced by the group loop of `params_state_update` is
raised by the underlying library (the `zip` over a `None` control-variate
attribute), never by this repository's own code. -/
theorem psuGroups_error_library (ec : ℤ) (mc : Option ℤ) (fn : String)
    (gs : List ParamGroup) (newc news : List ℚ)
    (cvs : Option (List ℚ × List ℚ)) (saves : List SaveFile) (e : PyError)
    (h : psuGroups ec mc fn newc news gs cvs saves = Except.error e) :
    e.raisedBy = RaiseSite.library := by
  induction gs generalizing newc news cvs saves with
  | nil => simp [psuGroups] at h
  | cons g gs ih =>
    cases cvs with
    | none =>
      simp only [psuGroups] at h
      injection h with h2
      rw [← h2]
    | some q =>
      obtain ⟨cc, sc⟩ := q
      simp only [psuGroups] at h
      exact ih _ _ _ _ h

/-- C7: this repository defines no error of its own: whenever
`params_state_update` fails, the exception originates in the underlying
library/runtime (the other operations — `step`,
`customize_server_response`, `process_server_response` — are total
functions in this embedding, so they cannot fail at all). -/
theorem C7_failures_originate_in_library
    (opt : FedSarahOptimizer) (e : PyError)
    (h : opt.params_state_update = Except.error e) :
    e.raisedBy = RaiseSite.library := by
  simp only [FedSarahOptimizer.params_state_update] at h
  rcases hp : psuGroups (opt.epoch_counter + 1) opt.max_counter
      ("new_client_control_variates_" ++ pyFormatId opt.client_id ++ ".pth")
      [] [] opt.param_groups opt.control_variates [] with e' | r
  · rw [hp] at h
    injection h with h2
    rw [h2] at hp
    exact psuGroups_error_library _ _ _ _ _ _ _ _ _ hp
  · rw [hp] at h
    simp at h

/-- An optimizer whose control variates were never initialized (as right
after `__init__`), so that `params_state_update` fails in the library. -/
def optUninit : FedSarahOptimizer :=
  { param_groups := [gW], control_variates := none, client_id := none,
    max_counter := none, epoch_counter := 0 }

/-- C7 witness: the theorem applied to the uninitialized optimizer, whose
`params_state_update` raises the library `TypeError` from `zip`. -/
theorem C7_failures_originate_in_library_witness :
    PyError.raisedBy
        { raisedBy := RaiseSite.library,
          message := "TypeError: zip argument #2 must support iteration" }
      = RaiseSite.library :=
  C7_failures_originate_in_library optUninit
    { raisedBy := RaiseSite.library,
      message := "TypeError: zip argument #2 must support iteration" }
    rfl

/-- When `max_counter` differs from the incremented epoch counter, the group
loop of `params_state_update` adds no save effect. -/
theorem psuGroups_no_save (ec : ℤ) (mc : Option ℤ) (fn : String)
    (hmc : mc ≠ some ec)
    (gs : List ParamGroup) (newc news : List ℚ)
    (cvs : Option (List ℚ × List ℚ)) (saves : List SaveFile)
    (r : Option (List ℚ × List ℚ) × List SaveFile)
    (h : psuGroups ec mc fn newc news gs cvs saves = Except.ok r) :
    r.2 = saves := by
  induction gs generalizing newc news cvs saves with
  | nil =>
    simp only [psuGroups] at h
    injection h with h2
    rw [← h2]
  | cons g gs ih =>
    cases cvs with
    | none => simp [psuGroups] at h
    | some q =>
      obtain ⟨cc, sc⟩ := q
      simp only [psuGroups, if_neg hmc] at h
      exact ih _ _ _ _ h

/-- An optimizer one local step away from its save point: `max_counter` is
1 and the epoch counter 0, so the next `params_state_update` writes the
client control variates to disk. -/
def optSave : FedSarahOptimizer :=
  { param_groups := [gNoGrad], control_variates := some (ccW, scW),
    client_id := some 7, max_counter := some 1, epoch_counter := 0 }

/-- C5 counterexample: it is not true that no operation writes numerical
training state to persistent storage — on `optSave`,
`params_state_update` saves the client control variates to
`new_client_control_variates_7.pth` (the `torch.save` at the end of the
method). -/
theorem C5_counterexample_save_effect :
    ¬ (∀ (opt opt' : FedSarahOptimizer) (saves : List SaveFile),
        opt.params_state_update = Except.ok (opt', saves) → saves = []) := by
  intro h
  have h2 := h optSave
    { param_groups := [gNoGrad], control_variates := some ([], []),
      client_id := some 7, max_counter := some 1, epoch_counter := 1 }
    [{ filename := "new_client_control_variates_7.pth", contents := [] }]
    rfl
  exact List.cons_ne_nil _ _ h2

/-- C5 (amended): per-client control variates and round counters are
transient in-memory state, and no operation writes numerical training state
to persistent storage — except that `params_state_update` saves the client
control variates to a `.pth` file once the incremented epoch counter equals
`max_counter`: below that point, no file is written. -/
theorem C5_amended_no_save_before_max_counter
    (opt opt' : FedSarahOptimizer) (saves : List SaveFile)
    (hmc : opt.max_counter ≠ some (opt.epoch_counter + 1))
    (h : opt.params_state_update = Except.ok (opt', saves)) :
    saves = [] := by
  simp only [FedSarahOptimizer.params_state_update] at h
  rcases hp : psuGroups (opt.epoch_counter + 1) opt.max_counter
      ("new_client_control_variates_" ++ pyFormatId opt.client_id ++ ".pth")
      [] [] opt.param_groups opt.control_variates [] with e' | r
  · rw [hp] at h
    simp at h
  · rw [hp] at h
    injection h with h2
    have hr : r.2 = ([] : List SaveFile) :=
      psuGroups_no_save _ _ _ hmc _ _ _ _ _ _ hp
    have hs : r.2 = saves := congrArg Prod.snd h2
    rw [← hs]
    exact hr

/-- An optimizer with no `max_counter` set (as this repository leaves it):
`params_state_update` then writes nothing. -/
def optNoSave : FedSarahOptimizer :=
  { param_groups := [gNoGrad], control_variates := some (ccW, scW),
    client_id := none, max_counter := none, epoch_counter := 0 }

/-- C5 amended witness: on `optNoSave` the hypotheses hold concretely and
the save list is empty. -/
theorem C5_amended_no_save_before_max_counter_witness :
    optNoSave.max_counter ≠ some (optNoSave.epoch_counter + 1) ∧
    ([] : List SaveFile) = [] :=
  ⟨by decide,
    C5_amended_no_save_before_max_counter optNoSave
      { param_groups := [gNoGrad], control_variates := some ([], []),
        client_id := none, max_counter := none, epoch_counter := 1 }
      [] (by decide) rfl⟩

/-- The inner loop of `params_state_update` when every parameter has a
gradient and the control-variate lists pair off with the parameters: it
appends, in order, one new client variate (the gradient) and one new server
variate (gradient plus old server minus old client variate) per parameter. -/
theorem psuParams_all_grads (ps : List Param) (cc sc newc news : List ℚ)
    (hlc : cc.length = ps.length) (hls : sc.length = ps.length)
    (hg : ∀ p ∈ ps, p.grad ≠ none) :
    ∃ addc adds : List ℚ,
      psuParams newc news ps cc sc = (newc ++ addc, news ++ adds) ∧
      addc.length = ps.length ∧ adds.length = ps.length ∧
      ∀ i, ∀ hi : i < ps.length,
        addc.get? i = (ps.get ⟨i, hi⟩).grad ∧
        adds.get? i = ((ps.get ⟨i, hi⟩).grad).map
          (fun gr => gr + (sc.getD i 0 - cc.getD i 0)) := by
  induction ps generalizing cc sc newc news with
  | nil =>
    refine ⟨[], [], by simp [psuParams], rfl, rfl, ?_⟩
    intro i hi
    exact absurd hi (Nat.not_lt_zero i)
  | cons p ps ih =>
    cases cc with
    | nil => simp at hlc
    | cons c cs =>
      cases sc with
      | nil => simp at hls
      | cons v vs =>
        obtain ⟨gr, hgr⟩ :=
          Option.ne_none_iff_exists'.mp (hg p (List.mem_cons_self p ps))
        have hlc' : cs.length = ps.length := by simpa using hlc
        have hls' : vs.length = ps.length := by simpa using hls
        have hg' : ∀ q ∈ ps, q.grad ≠ none := fun q hq =>
          hg q (List.mem_cons_of_mem p hq)
        obtain ⟨addc, adds, heq, hlen1, hlen2, hpt⟩ :=
          ih cs vs (newc ++ [gr]) (news ++ [gr + (v - c)]) hlc' hls' hg'
        refine ⟨gr :: addc, (gr + (v - c)) :: adds, ?_, by simp [hlen1],
          by simp [hlen2], ?_⟩
        · rw [psuParams, hgr]
          simp [heq]
        · intro i hi
          cases i with
          | zero => simp [hgr]
          | succ n =>
            have hn : n < ps.length := Nat.succ_lt_succ_iff.mp (by simpa using hi)
            have hptn := hpt n hn
            refine ⟨by simpa using hptn.1, by simpa using hptn.2⟩

/-- C6: on a single parameter group in which every parameter has a gradient
(and control-variate lists pairing off with the parameters),
`params_state_update` increments the epoch counter by exactly one, makes
each new client control variate the parameter's current gradient, and makes
each new server control variate the current gradient plus the previous
server variate minus the previous client variate. -/
theorem C6_params_state_update_recurrence
    (g : ParamGroup) (cc sc : List ℚ) (cid mc : Option ℤ) (ec : ℤ)
    (hlc : cc.length = g.params.length) (hls : sc.length = g.params.length)
    (hg : ∀ p ∈ g.params, p.grad ≠ none) :
    ∃ (opt' : FedSarahOptimizer) (saves : List SaveFile) (cc' sc' : List ℚ),
      FedSarahOptimizer.params_state_update
          { param_groups := [g], control_variates := some (cc, sc),
            client_id := cid, max_counter := mc, epoch_counter := ec }
        = Except.ok (opt', saves) ∧
      opt'.epoch_counter = ec + 1 ∧
      opt'.control_variates = some (cc', sc') ∧
      cc'.length = g.params.length ∧ sc'.length = g.params.length ∧
      ∀ i, ∀ hi : i < g.params.length,
        cc'.get? i = (g.params.get ⟨i, hi⟩).grad ∧
        sc'.get? i = ((g.params.get ⟨i, hi⟩).grad).map
          (fun gr => gr + (sc.getD i 0 - cc.getD i 0)) := by
  obtain ⟨addc, adds, heq, hl1, hl2, hpt⟩ :=
    psuParams_all_grads g.params cc sc [] [] hlc hls hg
  have hrun : psuGroups (ec + 1) mc
      ("new_client_control_variates_" ++ pyFormatId cid ++ ".pth") [] []
      [g] (some (cc, sc)) []
      = Except.ok (some (addc, adds),
          if mc = some (ec + 1) then [{ filename := "new_client_control_variates_" ++ pyFormatId cid ++ ".pth", contents := addc }] else []) := by
    simp [psuGroups, heq]
  refine ⟨{ param_groups := [g], control_variates := some (addc, adds), client_id := cid, max_counter := mc, epoch_counter := ec + 1 },
    (if mc = some (ec + 1) then [{ filename := "new_client_control_variates_" ++ pyFormatId cid ++ ".pth", contents := addc }] else []),
    addc, adds, ?_, rfl, rfl, hl1, hl2, hpt⟩
  simp only [FedSarahOptimizer.params_state_update]
  rw [hrun]

/-- C6 witness: the theorem applied to a one-parameter optimizer with
gradient 2 and control variates `([3], [5])`. -/
theorem C6_params_state_update_recurrence_witness :
    ∃ (opt' : FedSarahOptimizer) (saves : List SaveFile) (cc' sc' : List ℚ),
      FedSarahOptimizer.params_state_update
          { param_groups := [gW], control_variates := some (ccW, scW),
            client_id := none, max_counter := none, epoch_counter := 0 }
        = Except.ok (opt', saves) ∧
      opt'.epoch_counter = 0 + 1 ∧
      opt'.control_variates = some (cc', sc') ∧
      cc'.length = gW.params.length ∧ sc'.length = gW.params.length ∧
      ∀ i, ∀ hi : i < gW.params.length,
        cc'.get? i = (gW.params.get ⟨i, hi⟩).grad ∧
        sc'.get? i = ((gW.params.get ⟨i, hi⟩).grad).map
          (fun gr => gr + (scW.getD i 0 - ccW.getD i 0)) :=
  C6_params_state_update_recurrence gW ccW scW none none 0
    (by decide) (by decide) (by decide)
